import Mathlib

/-!
Verification development for the trustydns repository (a DNS-over-HTTPS proxy
and server written in Go).  The definitions below are a shallow embedding of
the Go sources: pure Go functions become Lean functions, stateful Go methods
become explicit state-passing functions, Go machine integers (int, int64,
time.Duration in nanoseconds) become Lean Int, Go uint becomes Nat where the
source guarantees non-negativity.  External library functions from
github.com/miekg/dns (message packing, length computation, message truncation,
IP parsing) are modelled either as explicit oracle parameters or, where their
exact behaviour matters to a claim, as Lean translations of the library
version pinned by go.mod (miekg/dns v1.1.62).
-/

/-! ## Constants (internal/constants/constants.go) -/

def MinimumViableDNSMessage : Nat := 16

def DNSTruncateThreshold : Nat := 512

def MaximumViableDNSMessage : Nat := 65535

def Rfc8467ClientPadModulo : Nat := 128

def Rfc8467ServerPadModulo : Nat := 468

def DNSUDPTransport : String := "udp"

def DNSTCPTransport : String := "tcp"

/-! ## DNS message model

A `Msg` models the parts of miekg/dns.Msg that the verified code reads or
writes: the header id / opcode / rcode / truncated flag, the question section
(only the class of each question is consulted), the TSIG presence flag
(`IsTsig() != nil`), and the three RR sections.  An RR is either the OPT
pseudo-RR (EDNS0 container, `udpSize` is its header class field) or any other
RR (`plain`).  EDNS0 sub-options model EDNS0_SUBNET (code 8), EDNS0_PADDING
(code 12) and everything else by its option code. -/

inductive IPAddr where
  | v4 (a b c d : Nat)
  | v6 (s : List Nat)
deriving DecidableEq

/-- Model of Go net.IP.To4() != nil: true exactly for 4-byte addresses
(IPv4-mapped IPv6 literals parse to the same 4-byte form in net.ParseIP,
so they are represented by the `v4` constructor as well). -/
def IPAddr.to4ok : IPAddr → Bool
  | .v4 _ _ _ _ => true
  | .v6 _ => false

/-- Model of Go net.IP.To16() != nil: every address net.ParseIP produces has a
16-byte form, IPv4 addresses included. -/
def IPAddr.to16ok : IPAddr → Bool
  | _ => true

inductive Edns0Option where
  | subnet (family : Nat) (sourceNetmask : Nat) (sourceScope : Nat) (address : IPAddr)
  | padding (padLen : Nat)
  | other (code : Nat)
deriving DecidableEq

/-- Option code of an EDNS0 sub-option (EDNS0SUBNET = 8, EDNS0PADDING = 12). -/
def Edns0Option.code : Edns0Option → Nat
  | .subnet _ _ _ _ => 8
  | .padding _ => 12
  | .other c => c

inductive RR where
  | opt (udpSize : Nat) (ttl : Nat) (options : List Edns0Option)
  | plain (ttl : Nat)
deriving DecidableEq

structure Question where
  qclass : Nat
deriving DecidableEq

structure Msg where
  id : Nat
  opcode : Nat
  rcode : Nat
  truncated : Bool
  tsigPresent : Bool
  question : List Question
  answer : List RR
  ns : List RR
  extra : List RR
deriving DecidableEq

/-- A convenient all-zero message. -/
def Msg.empty : Msg :=
  { id := 0, opcode := 0, rcode := 0, truncated := false, tsigPresent := false,
    question := [], answer := [], ns := [], extra := [] }

/-! ## dnsutil helpers (internal/dnsutil, src/unnamed/part_011) -/

/-- FindOPT: first OPT RR in Extra, if any (returns its list index together
with its fields so that in-place mutation of the Go pointer can be modelled
by replacement at that index). -/
def findOPTIdx : List RR → Option (Nat × Nat × Nat × List Edns0Option)
  | [] => none
  | .opt u t os :: _ => some (0, u, t, os)
  | .plain _ :: rest =>
      match findOPTIdx rest with
      | some (i, u, t, os) => some (i + 1, u, t, os)
      | none => none

/-- FindOPT as the Go function returns it: the first OPT RR of Extra. -/
def FindOPT (m : Msg) : Option RR :=
  match findOPTIdx m.extra with
  | some (_, u, t, os) => some (.opt u t os)
  | none => none

/-- FindECS: the first EDNS0_SUBNET sub-option found in any OPT of Extra. -/
def FindECS (m : Msg) : Option Edns0Option :=
  let rec searchOpts : List Edns0Option → Option Edns0Option
    | [] => none
    | o@(.subnet _ _ _ _) :: _ => some o
    | _ :: rest => searchOpts rest
  let rec searchRRs : List RR → Option Edns0Option
    | [] => none
    | .opt _ _ os :: rest =>
        match searchOpts os with
        | some o => some o
        | none => searchRRs rest
    | .plain _ :: rest => searchRRs rest
  searchRRs m.extra

/-- FindPadding: length of the first EDNS0_PADDING sub-option found in any
OPT of Extra; Go returns -1 when there is none, modelled as `none`. -/
def FindPadding (m : Msg) : Option Nat :=
  let rec searchOpts : List Edns0Option → Option Nat
    | [] => none
    | .padding n :: _ => some n
    | _ :: rest => searchOpts rest
  let rec searchRRs : List RR → Option Nat
    | [] => none
    | .opt _ _ os :: rest =>
        match searchOpts os with
        | some n => some n
        | none => searchRRs rest
    | .plain _ :: rest => searchRRs rest
  searchRRs m.extra

/-- One step of RemoveEDNS0FromOPT: rebuild the Extra list keeping non-OPT
RRs, dropping sub-options whose code matches, and dropping OPT RRs that end
up empty.  Returns the surviving RRs and whether anything was removed. -/
def removeEdns0Scan (edns0Code : Nat) : List RR → List RR × Bool
  | [] => ([], false)
  | .plain t :: rest =>
      let (out, removed) := removeEdns0Scan edns0Code rest
      (.plain t :: out, removed)
  | .opt u t os :: rest =>
      let survivors := os.filter (fun o => o.code != edns0Code)
      let removedHere := survivors.length != os.length
      let (out, removed) := removeEdns0Scan edns0Code rest
      if survivors.length > 0 then
        (.opt u t survivors :: out, removedHere || removed)
      else
        (out, removedHere || removed)

/-- RemoveEDNS0FromOPT: remove all occurrences of the given sub-option code
from all OPTs in Extra.  As in the Go source, Extra is replaced by the
survivor list only when at least one sub-option was removed.  Returns the
updated message and the removed flag. -/
def RemoveEDNS0FromOPT (m : Msg) (edns0Code : Nat) : Msg × Bool :=
  let (out, removed) := removeEdns0Scan edns0Code m.extra
  (if removed then { m with extra := out } else m, removed)

/-- NewOPT: a fresh OPT RR with version 0, UDP size dns.DefaultMsgSize (4096)
and name "." (only the modelled fields appear). -/
def NewOPT : RR := .opt 4096 0 []

/-- Replace the first OPT of the list by itself with `o` appended to its
options; used to model appending to the OPT found by FindOPT. -/
def appendToFirstOPT (o : Edns0Option) : List RR → List RR
  | [] => []
  | .opt u t os :: rest => .opt u t (os ++ [o]) :: rest
  | .plain t :: rest => .plain t :: appendToFirstOPT o rest

/-- CreateECS: append an EDNS0_SUBNET with the given family, prefix length
and address to the message's OPT, creating the OPT if absent. -/
def CreateECS (m : Msg) (family prefixLength : Nat) (ip : IPAddr) : Msg :=
  let ecs : Edns0Option := .subnet family prefixLength 0 ip
  match FindOPT m with
  | some _ => { m with extra := appendToFirstOPT ecs m.extra }
  | none => { m with extra := m.extra ++ [.opt 4096 0 [ecs]] }

/-! ## PadAndPack (internal/dnsutil/padding.go)

The miekg/dns length and serialisation routines `Msg.Len()` and `Msg.Pack()`
are external library code; they enter the model as the oracle parameters
`msgLen` and `pack`.  `pack` returns the packed bytes or an error. -/

/-- The message PadAndPack serialises: existing PADDING removed (when Extra
is non-empty), then a PADDING option of the given length appended to the
first OPT, an OPT being created when none exists. -/
def padMsgWith (m : Msg) (padLen : Nat) : Msg :=
  let m1 := if m.extra.length > 0 then (RemoveEDNS0FromOPT m 12).1 else m
  match FindOPT m1 with
  | some _ => { m1 with extra := appendToFirstOPT (.padding padLen) m1.extra }
  | none => { m1 with extra := m1.extra ++ [.opt 4096 0 [.padding padLen]] }

/-- The padded message PadAndPack hands to Pack: a zero-length padding
option is appended first, the resulting length is measured, and the padding
is resized so the length reaches the next multiple of `moduloSize` (the Go
source replaces the last option in place, which equals re-padding the
original message with the computed size). -/
def padAndPackFinalMsg (msgLen : Msg → Nat) (msg : Msg) (moduloSize : Nat) : Msg :=
  let mWithZeroPad := padMsgWith msg 0
  let mLen := msgLen mWithZeroPad
  let extraPadding := moduloSize - mLen % moduloSize
  if extraPadding > 0 then padMsgWith msg extraPadding else mWithZeroPad

/-- PadAndPack: pad the message so that its packed length is a multiple of
`moduloSize` and serialise it.  Faithful to the source: modulo range check,
padding sized from `msgLen` of the message carrying a zero-length padding
option, final division check on the packed bytes. -/
def PadAndPack (msgLen : Msg → Nat) (pack : Msg → Except String (List Nat))
    (msg : Msg) (moduloSize : Nat) : Except String (List Nat) :=
  if moduloSize < 1 || moduloSize > MaximumViableDNSMessage then
    .error "PadAndPack: Modulo size is not in range"
  else
    match pack (padAndPackFinalMsg msgLen msg moduloSize) with
    | .error e => .error e
    | .ok packed =>
        if packed.length % moduloSize != 0 then
          .error "PadAndPack dns.Pack() created unexpected length"
        else
          .ok packed

/-! ## DoH resolver bailiwick test (internal/resolver/doh/resolver.go)

`InBailiwick` delegates to the library checks dns.IsDomainName and dns.IsFqdn
of miekg/dns v1.1.62.  Both are modelled here on `List Char`:
`isFqdn` holds when the name ends in a dot that is not escaped (the number of
backslashes immediately before the final dot is even); `IsDomainName` models
the library's scan that rejects empty names, a leading dot on a non-root
name, consecutive dots, raw label lengths of 64 or more, and an accumulated
wire length above 256, while accepting a final unterminated label. -/

def trailingBackslashCount (s : List Char) : Nat :=
  (s.reverse.takeWhile (fun c => c = '\\')).length

/-- Model of dns.IsFqdn: final character is a dot that is not escaped. -/
def isFqdn (s : List Char) : Bool :=
  match s.getLast? with
  | some '.' => trailingBackslashCount s.dropLast % 2 = 0
  | _ => false

def isDDDChars (a b c : Char) : Bool := a.isDigit && b.isDigit && c.isDigit

/-- Scanner of dns.IsDomainName: `i` is the current raw position, `beg` the
raw position one past the previous dot, `off` the accumulated packed length,
`wasDot` whether the previous character was an unescaped dot, `ls` the total
raw length. -/
def domainNameLoop : List Char → Nat → Nat → Nat → Bool → Nat → Bool
  | [], _, _, _, _, _ => true
  | '\\' :: rest, i, beg, off, _, ls =>
      match rest with
      | a :: b :: c :: rest2 =>
          if isDDDChars a b c then domainNameLoop rest2 (i + 4) beg off false ls
          else domainNameLoop (b :: c :: rest2) (i + 2) beg off false ls
      | _ :: rest2 => domainNameLoop rest2 (i + 2) beg off false ls
      | [] => true
  | '.' :: rest, i, beg, off, wasDot, ls =>
      if i = 0 && ls > 1 then false
      else if wasDot then false
      else
        let labelLen := i - beg
        if labelLen ≥ 64 then false
        else if off + 1 + labelLen > 256 then false
        else domainNameLoop rest (i + 1) (i + 1) (off + 1 + labelLen) true ls
  | _ :: rest, i, beg, off, _, ls => domainNameLoop rest (i + 1) beg off false ls

/-- Model of dns.IsDomainName (just the boolean result; the label count the
library also returns is unused by the source). -/
def IsDomainName (s : List Char) : Bool :=
  if s.length = 0 then false else domainNameLoop s 0 0 0 false s.length

/-- InBailiwick of the DoH resolver: reject names without a dot, otherwise
require the library domain-name check and the fully-qualified check. -/
def dohInBailiwick (qName : List Char) : Bool :=
  if !(qName.contains '.') then false
  else IsDomainName qName && isFqdn qName

/-! ## Proxy truncation policy (ServeDNS, src/unnamed/part_001)

The downstream write path of the proxy: when the client transport is UDP and
the resolver-reported payload size exceeds the threshold, the response may be
truncated to the client's limit.  miekg/dns Msg.Truncate is external library
code and enters as the oracle `truncateFn`. -/

/-- Model of miekg Msg.IsEdns0: the first OPT RR of Extra. -/
def IsEdns0 (m : Msg) : Option RR := FindOPT m

/-- Total number of RRs in the three non-question sections. -/
def rrCount (m : Msg) : Nat := m.answer.length + m.ns.length + m.extra.length

/-- The client's size limit: the threshold 512, raised to the query OPT's
UDP size when an OPT is present and its UDP size exceeds 512. -/
def truncationLimit (query : Msg) : Nat :=
  match IsEdns0 query with
  | some (.opt u _ _) => if u > DNSTruncateThreshold then u else DNSTruncateThreshold
  | _ => DNSTruncateThreshold

/-- The truncation step of ServeDNS: on the UDP path with an oversized
payload, truncate to the limit and re-derive the Truncated flag as
`library result OR previously set OR some section shrank`. -/
def serveDNSTruncate (truncateFn : Msg → Nat → Msg) (transport : String)
    (query resp : Msg) (payloadSize : Nat) : Msg :=
  if transport = DNSUDPTransport ∧ payloadSize > DNSTruncateThreshold then
    let limit := truncationLimit query
    if payloadSize > limit then
      let preserveTruncated := resp.truncated
      let beforeCount := rrCount resp
      let r := truncateFn resp limit
      let afterCount := rrCount r
      { r with truncated := r.truncated || preserveTruncated || decide (beforeCount ≠ afterCount) }
    else resp
  else resp

/-! ## DoH server ECS synthesis (cmd/trustydns-server/server.go)

`synthesizeECS` with its helpers `extractPrefixLengths` and
`parseRemoteAddr`.  net.ParseIP is external library code and enters as the
oracle `parseIP`.  The event indices mirror the Go const block
(evGet = 0, ..., evECSv4Synth = 3, evECSv6Synth = 4); when no switch case
fires the Go function returns the zero value of evIndex, which is evGet. -/

def evGet : Nat := 0

def evECSv4Synth : Nat := 3

def evECSv6Synth : Nat := 4

inductive SynthErr where
  | badPrefixLengths
  | ecsSynthesisFailed
deriving DecidableEq

/-- Model of strconv.ParseUint(s, 10, 8): digits only, non-empty, at most
255. -/
def parseUint8 (s : List Char) : Option Nat :=
  let rec go : List Char → Nat → Option Nat
    | [], acc => some acc
    | c :: rest, acc =>
        if c.isDigit then
          let acc2 := acc * 10 + (c.toNat - 48)
          if acc2 > 255 then none else go rest acc2
        else none
  if s.isEmpty then none else go s 0

/-- extractPrefixLengths: parse "p4/p6" where both parts are uint8 numerals
and p4 is at most 32, p6 at most 128.  The distinct Go error messages all
collapse on `none`. -/
def extractPrefixLengths (requestData : List Char) : Option (Int × Int) :=
  match requestData.splitOn '/' with
  | [p4s, p6s] =>
      match parseUint8 p4s, parseUint8 p6s with
      | some p4, some p6 =>
          if p4 > 32 then none
          else if p6 > 128 then none
          else some ((p4 : Int), (p6 : Int))
      | _, _ => none
  | _ => none

/-- parseRemoteAddr: split an ip:port or bracketed ipv6:port form at the last
colon, strip brackets, and hand the host part to the IP parser oracle. -/
def parseRemoteAddr (parseIP : List Char → Option IPAddr) (ra : List Char) :
    Option IPAddr :=
  if !(ra.contains ':') then none
  else
    let afterLen := (ra.reverse.takeWhile (fun c => c ≠ ':')).length
    let ipString := ra.take (ra.length - afterLen - 1)
    if ipString.length < 2 then none
    else
      let ipString2 :=
        if ipString.head? = some '[' ∧ ipString.getLast? = some ']' then
          (ipString.drop 1).dropLast
        else ipString
      parseIP ipString2

/-- CreateECS wrapper taking the Go int prefix length; the Go source casts
it to uint8 when building the sub-option. -/
def createECSInt (m : Msg) (family : Nat) (prefixLength : Int) (ip : IPAddr) : Msg :=
  CreateECS m family ((prefixLength.emod 256).toNat) ip

/-- synthesizeECS: the prefix lengths from the X-trustydns-Synth header
override the configured Set lengths; the peer IP comes from the HTTPS remote
address; the switch inserts family 1 for a To4 peer with positive p4, else
family 2 for a To16 peer with positive p6, else nothing. -/
def synthesizeECS (parseIP : List Char → Option IPAddr)
    (ecsSetIPv4PrefixLen ecsSetIPv6PrefixLen : Int)
    (dnsQ : Msg) (ecsRequestData remoteAddr : List Char) :
    Except SynthErr (Nat × Msg) :=
  let pls : Except SynthErr (Int × Int) :=
    if ecsRequestData.length > 0 then
      match extractPrefixLengths ecsRequestData with
      | some p => .ok p
      | none => .error .badPrefixLengths
    else .ok (ecsSetIPv4PrefixLen, ecsSetIPv6PrefixLen)
  match pls with
  | .error e => .error e
  | .ok (ipv4PrefixLen, ipv6PrefixLen) =>
      match parseRemoteAddr parseIP remoteAddr with
      | none => .error .ecsSynthesisFailed
      | some ip =>
          if ip.to4ok && decide (ipv4PrefixLen > 0) then
            .ok (evECSv4Synth, createECSInt dnsQ 1 ipv4PrefixLen ip)
          else if ip.to16ok && decide (ipv6PrefixLen > 0) then
            .ok (evECSv6Synth, createECSInt dnsQ 2 ipv6PrefixLen ip)
          else .ok (evGet, dnsQ)

/-! ## BestServer managers (internal/bestserver, src/unnamed/part_016,
internal/bestserver/latency.go)

Server identity: the Go map `serverToIndex` is keyed by the caller-supplied
`Server` pointer and the construction makes every pointer map to its array
index, so server identity is modelled by the array index; a `Result` call
with an index outside the array models a `Server` that is not in the map and
leaves the state unchanged (Go returns false there).  `time.Time` and
`time.Duration` are nanosecond Ints; `now.After(e)` is `now > e` and
`a.Add(d).Before(now)` is `a + d < now`. -/

def algNone : Nat := 0

def algOnlyOne : Nat := 1

def algFirstCab : Nat := 2

def algSecondCab : Nat := 3

def algFastest : Nat := 4

def algAllBad : Nat := 5

structure LatencyConfig where
  reassessAfter : Int
  reassessCount : Int
  resetFailedAfter : Int
  sampleOthersEvery : Int
  weightForLatest : Int
deriving DecidableEq

def DefaultLatencyConfig : LatencyConfig :=
  { reassessCount := 1061, reassessAfter := 61 * 1000000000,
    weightForLatest := 67, resetFailedAfter := 180 * 1000000000,
    sampleOthersEvery := 20 }

structure LatencyServerStats where
  lastStatusTime : Int
  lastStatusWasFailure : Bool
  weightedAverage : Int
deriving DecidableEq

/-- The Go zero value of latencyServerStats, also the rehabilitation reset. -/
def LatencyServerStats.zero : LatencyServerStats :=
  { lastStatusTime := 0, lastStatusWasFailure := false, weightedAverage := 0 }

structure LatencyState where
  cfg : LatencyConfig
  servers : List String
  stats : List LatencyServerStats
  assessCount : Int
  sampleCount : Int
  sampleIndex : Nat
  saveBestIndex : Nat
  bestIndex : Nat
  bestExpires : Int
  reassessRationale : Nat
deriving DecidableEq

/-- NewLatency: validate the config (negative values are rejected), replace
zero fields by the defaults, and build the initial state with zeroed stats
and best index 0. -/
def newLatency (config : LatencyConfig) (servers : List String) :
    Option LatencyState :=
  if servers.length = 0 then none
  else if config.reassessAfter < 0 then none
  else if config.reassessCount < 0 then none
  else if config.weightForLatest < 0 ∨ config.weightForLatest > 100 then none
  else if config.resetFailedAfter < 0 then none
  else if config.sampleOthersEvery < 0 then none
  else
    let c := config
    let c := if c.reassessAfter = 0 then { c with reassessAfter := DefaultLatencyConfig.reassessAfter } else c
    let c := if c.reassessCount = 0 then { c with reassessCount := DefaultLatencyConfig.reassessCount } else c
    let c := if c.weightForLatest = 0 then { c with weightForLatest := DefaultLatencyConfig.weightForLatest } else c
    let c := if c.resetFailedAfter = 0 then { c with resetFailedAfter := DefaultLatencyConfig.resetFailedAfter } else c
    let c := if c.sampleOthersEvery = 0 then { c with sampleOthersEvery := DefaultLatencyConfig.sampleOthersEvery } else c
    some { cfg := c, servers := servers,
           stats := List.replicate servers.length .zero,
           assessCount := 0, sampleCount := 0, sampleIndex := 0,
           saveBestIndex := 0, bestIndex := 0, bestExpires := 0,
           reassessRationale := algNone }

/-- baseManager.Best: read-only, returns the current best server and its
index. -/
def latBest (t : LatencyState) : String × Nat :=
  (t.servers.getD t.bestIndex "", t.bestIndex)

/-- One index of the reassessBest scan: rehabilitate a failed server whose
failure is older than ResetFailedAfter, otherwise consider it as the
tentative new best per the source's switch. -/
def reassessStepAcc (resetFailedAfter now : Int)
    (acc : List LatencyServerStats × Option Nat × Nat) (ix : Nat) :
    List LatencyServerStats × Option Nat × Nat :=
  let stats := acc.1
  let newBest := acc.2.1
  let rat := acc.2.2
  let s := stats.getD ix .zero
  if s.lastStatusWasFailure then
    if s.lastStatusTime + resetFailedAfter < now then
      (stats.set ix .zero, newBest, rat)
    else (stats, newBest, rat)
  else
    match newBest with
    | none => (stats, some ix, algFirstCab)
    | some nbv =>
        if s.weightedAverage = 0 then (stats, newBest, rat)
        else if (stats.getD nbv .zero).weightedAverage = 0 then
          (stats, some ix, algSecondCab)
        else if s.weightedAverage < (stats.getD nbv .zero).weightedAverage then
          (stats, some ix, algFastest)
        else (stats, newBest, rat)

/-- The linear scan of reassessBest over the list of indices, carrying the
(mutated) stats, the tentative new best and the rationale. -/
def reassessScan (resetFailedAfter now : Int) :
    List Nat → List LatencyServerStats × Option Nat × Nat →
    List LatencyServerStats × Option Nat × Nat
  | [], acc => acc
  | ix :: rest, acc =>
      reassessScan resetFailedAfter now rest
        (reassessStepAcc resetFailedAfter now acc ix)

/-- reassessBest: single-server shortcut, else the scan; with no surviving
candidate the best advances to the next index (all-bad rotation). -/
def reassessBest (t : LatencyState) (now : Int) : LatencyState :=
  let t := { t with reassessRationale := algNone }
  if t.servers.length = 1 then { t with reassessRationale := algOnlyOne }
  else
    match reassessScan t.cfg.resetFailedAfter now (List.range t.servers.length)
        (t.stats, none, algNone) with
    | (stats2, some nb, rat) =>
        { t with stats := stats2, bestIndex := nb, reassessRationale := rat,
                 bestExpires := now + t.cfg.reassessAfter }
    | (stats2, none, _) =>
        { t with stats := stats2,
                 bestIndex := (t.bestIndex + 1) % t.servers.length,
                 reassessRationale := algAllBad,
                 bestExpires := now + t.cfg.reassessAfter }

/-- First half of assess: bump the assess counter and reassess the best
server when the report is about the best and is a failure or a threshold was
reached. -/
def reassessPhase (t : LatencyState) (now : Int) (ix : Nat) (success : Bool) :
    LatencyState :=
  let t := { t with assessCount := t.assessCount + 1 }
  if ix = t.bestIndex then
    if ¬success ∨ t.assessCount ≥ t.cfg.reassessCount ∨ now > t.bestExpires then
      let t2 := reassessBest t now
      { t2 with saveBestIndex := t2.bestIndex, assessCount := 0 }
    else t
  else t

/-- Second half of assess: the sampling step.  Below the sampling rate the
best reverts to the saved true best; at the rate the sample index advances
and the best moves to it only when that server is not failing. -/
def sampleStep (t : LatencyState) : LatencyState :=
  let t := { t with sampleCount := t.sampleCount + 1 }
  if t.sampleCount < t.cfg.sampleOthersEvery then
    { t with bestIndex := t.saveBestIndex }
  else
    let si := (t.sampleIndex + 1) % t.servers.length
    let t := { t with sampleIndex := si }
    if !(t.stats.getD si .zero).lastStatusWasFailure then
      { t with bestIndex := si, sampleCount := 0 }
    else t

/-- assess, as in the source: reassessment phase then sampling phase. -/
def assess (t : LatencyState) (now : Int) (ix : Nat) (success : Bool) :
    LatencyState :=
  sampleStep (reassessPhase t now ix success)

/-- latency.Result: update the reported server's stats (EWMA on success,
with plain Go int64 division truncating toward zero) and assess. -/
def latResult (t : LatencyState) (server : Nat) (success : Bool)
    (now lat : Int) : LatencyState :=
  if server < t.servers.length then
    let ix := server
    let s0 := t.stats.getD ix .zero
    let s1 := { s0 with lastStatusWasFailure := !success, lastStatusTime := now }
    let s2 :=
      if success then
        if s1.weightedAverage = 0 then { s1 with weightedAverage := lat }
        else
          let current := lat * t.cfg.weightForLatest
          let historic := s1.weightedAverage * (100 - t.cfg.weightForLatest)
          { s1 with weightedAverage := Int.tdiv (current + historic) 100 }
      else s1
    assess { t with stats := t.stats.set ix s2 } now ix success
  else t

/-- Traditional manager state (res_send-style fail-over). -/
structure TradState where
  servers : List String
  bestIndex : Nat
deriving DecidableEq

def newTraditional (servers : List String) : Option TradState :=
  if servers.length = 0 then none else some { servers := servers, bestIndex := 0 }

/-- baseManager.Best for the traditional manager. -/
def tradBest (t : TradState) : String × Nat :=
  (t.servers.getD t.bestIndex "", t.bestIndex)

/-- traditional.Result: a failure reported for the current best advances the
best index; success and reports about other servers change nothing. -/
def tradResult (t : TradState) (server : Nat) (success : Bool) : TradState :=
  if server < t.servers.length then
    if success then t
    else if server = t.bestIndex then
      { t with bestIndex := (t.bestIndex + 1) % t.servers.length }
    else t
  else t

/-! ### Operation traces over a manager (for the Best-stability claim) -/

inductive BSOp where
  | best
  | servers
  | len
  | result (server : Nat) (success : Bool) (now lat : Int)
deriving DecidableEq

def BSOp.isResult : BSOp → Bool
  | .result _ _ _ _ => true
  | _ => false

/-- State evolution of the latency manager under one API call: Best, Servers
and Len take a read lock and only read; Result mutates. -/
def latExec (t : LatencyState) (op : BSOp) : LatencyState :=
  match op with
  | .best => t
  | .servers => t
  | .len => t
  | .result s succ now lat => latResult t s succ now lat

/-- State evolution of the traditional manager under one API call. -/
def tradExec (t : TradState) (op : BSOp) : TradState :=
  match op with
  | .result s succ _ _ => tradResult t s succ
  | _ => t

/-! ## Local resolver (internal/resolver/local, the Resolve loop in
src/internal/resolver/local/reporter_test.go)

The dns.Client exchange is external I/O modelled by an oracle
`exch callIx net server` that yields the reply (none models a transport
error) and the round-trip time for the given call of the resolution, the
`net` argument being "" for the default UDP client and "tcp" for the
fallback client, exactly the strings the source hands to
NewDNSClientExchangerFunc.  Statistics counters (addServerSuccess and
friends) have no bearing on the claims and are omitted. -/

structure ExchangeReply where
  reply : Option Msg
  rtt : Int
deriving DecidableEq

abbrev Exchanger := Nat → String → String → ExchangeReply

structure ResponseMetaData where
  transportType : String
  transportDuration : Int
  resolutionDuration : Int
  payloadSize : Nat
  queryTries : Nat
  serverTries : Nat
  finalServerUsed : String
deriving DecidableEq

/-- The running state of one Resolve call. -/
structure ResolveState where
  trad : TradState
  timeUsed : Int
  queryTries : Nat
  serverTries : Nat
  finalServerUsed : String
  callIx : Nat
deriving DecidableEq

/-- Everything one loop iteration establishes before the iterate/stop
decision. -/
structure AttemptOutcome where
  reply : Option Msg
  bsSuccess : Bool
  iterate : Bool
  transportType : String
  tcpFallback : Bool
  tcpSuperior : Bool
  rtt : Int
  serverName : String
  bsix : Nat
  stAfter : ResolveState
deriving DecidableEq

/-- The rcode classification switch of Resolve: given the final reply (or a
transport error), whether the server report is a success and whether the
loop iterates. -/
def classifyOutcome (reply : Option Msg) : Bool × Bool :=
  match reply with
  | none => (false, true)
  | some r =>
      if r.rcode = 0 then (true, false)
      else if r.rcode = 1 then (true, false)
      else if r.rcode = 2 then (false, true)
      else if r.rcode = 3 then (true, false)
      else if r.rcode = 5 then (false, true)
      else if r.rcode = 4 then (true, true)
      else (true, false)

/-- The body of one iteration of the Resolve loop: pick the best server,
exchange over UDP, fall back to TCP when the UDP reply is NoError with
TC set, classify, accrue the round-trip time and feed the traditional
manager. -/
def attemptCore (exch : Exchanger) (st : ResolveState) : AttemptOutcome :=
  let st := { st with serverTries := st.serverTries + 1 }
  let sb := tradBest st.trad
  let serverName := sb.1
  let bsix := sb.2
  let st := { st with finalServerUsed := serverName, queryTries := st.queryTries + 1 }
  let e1 := exch st.callIx "" serverName
  let st := { st with callIx := st.callIx + 1 }
  let fb : Option Msg × Int × String × Bool × Bool × ResolveState :=
    match e1.reply with
    | some r =>
        if r.rcode = 0 ∧ r.truncated then
          let st := { st with queryTries := st.queryTries + 1 }
          let e2 := exch st.callIx "tcp" serverName
          let st := { st with callIx := st.callIx + 1 }
          match e2.reply with
          | some tr =>
              if tr.rcode = 0 then
                (some tr, e1.rtt + e2.rtt, DNSTCPTransport, true, true, st)
              else (some r, e1.rtt + e2.rtt, DNSUDPTransport, true, false, st)
          | none => (some r, e1.rtt + e2.rtt, DNSUDPTransport, true, false, st)
        else (some r, e1.rtt, DNSUDPTransport, false, false, st)
    | none => (none, e1.rtt, DNSUDPTransport, false, false, st)
  let reply := fb.1
  let rtt := fb.2.1
  let transportType := fb.2.2.1
  let tcpFallback := fb.2.2.2.1
  let tcpSuperior := fb.2.2.2.2.1
  let st := fb.2.2.2.2.2
  let cls := classifyOutcome reply
  let st := { st with timeUsed := st.timeUsed + rtt }
  let st := { st with trad := tradResult st.trad bsix cls.1 }
  { reply := reply, bsSuccess := cls.1, iterate := cls.2,
    transportType := transportType, tcpFallback := tcpFallback,
    tcpSuperior := tcpSuperior, rtt := rtt, serverName := serverName,
    bsix := bsix, stAfter := st }

inductive StepOut where
  | done (r : Msg) (meta : ResponseMetaData)
  | timeoutFail
  | next (st : ResolveState)
deriving DecidableEq

/-- One iteration with its exit decision: a non-iterating outcome returns
the reply at once (the budget is not consulted); an iterating outcome hits
the cumulative-time check before the next attempt may run. -/
def attemptStep (msgLen : Msg → Nat) (exch : Exchanger) (timeAvailable : Int)
    (st : ResolveState) : StepOut :=
  let oc := attemptCore exch st
  match oc.reply, oc.iterate with
  | some r, false =>
      .done r { transportType := oc.transportType, transportDuration := 1,
                resolutionDuration := oc.stAfter.timeUsed,
                payloadSize := msgLen r,
                queryTries := oc.stAfter.queryTries,
                serverTries := oc.stAfter.serverTries,
                finalServerUsed := oc.stAfter.finalServerUsed }
  | _, _ =>
      if oc.stAfter.timeUsed > timeAvailable then .timeoutFail
      else .next oc.stAfter

inductive ResolveErr where
  | queryTimeout
  | attemptsExceeded
deriving DecidableEq

/-- The attempt loop; the fuel is the remaining attempt count and running
out of it is the attempts-exceeded error. -/
def resolveLoop (msgLen : Msg → Nat) (exch : Exchanger) (timeAvailable : Int) :
    Nat → ResolveState → Except ResolveErr (Msg × ResponseMetaData)
  | 0, _ => .error .attemptsExceeded
  | rem + 1, st =>
      match attemptStep msgLen exch timeAvailable st with
      | .done r meta => .ok (r, meta)
      | .timeoutFail => .error .queryTimeout
      | .next st2 => resolveLoop msgLen exch timeAvailable rem st2

/-- local.Resolve: the time budget is Timeout seconds, the attempt budget is
Attempts clipped to the server count, and the loop starts on the traditional
manager's initial state. -/
def localResolve (msgLen : Msg → Nat) (exch : Exchanger)
    (attemptsCfg timeoutCfg : Int) (servers : List String) :
    Except ResolveErr (Msg × ResponseMetaData) :=
  let timeAvailable := timeoutCfg * 1000000000
  let n := servers.length
  let maxAttempts := if attemptsCfg > (n : Int) then (n : Int) else attemptsCfg
  resolveLoop msgLen exch timeAvailable maxAttempts.toNat
    { trad := { servers := servers, bestIndex := 0 }, timeUsed := 0,
      queryTries := 0, serverTries := 0, finalServerUsed := "", callIx := 0 }

/-! ## TTL reduction (internal/dnsutil, src/unnamed/part_011) -/

/-- The per-RR computation of reduceRRSet in 64-bit signed arithmetic: a TTL
above the minimum is reduced and clamped at the minimum. -/
def reduceTTLNat (byAmt minimum : Int) (ttl : Nat) : Nat :=
  let t := (ttl : Int)
  if t > minimum then
    let t2 := t - byAmt
    let t3 := if t2 < minimum then minimum else t2
    t3.toNat
  else ttl

def reduceRR (byAmt minimum : Int) : RR → RR
  | .opt u t os => .opt u (reduceTTLNat byAmt minimum t) os
  | .plain t => .plain (reduceTTLNat byAmt minimum t)

/-- ReduceTTL over the three non-question sections (the change count the Go
function returns is unused by the callers that matter here). -/
def ReduceTTL (m : Msg) (byAmt minimum : Int) : Msg :=
  { m with answer := m.answer.map (reduceRR byAmt minimum),
           ns := m.ns.map (reduceRR byAmt minimum),
           extra := m.extra.map (reduceRR byAmt minimum) }

/-! ## DoH resolver client (internal/resolver/doh/resolver.go Resolve)

The HTTPS transport is modelled at message level: `serverFn` maps the
message delivered on the wire (after ECS manipulation, GET id zeroing and
padding) to the HTTP response, `none` modelling a transport error of
http.Client.Do.  The body of a usable response is the message it unpacks to
(`body = none` models an unpack failure) together with the raw body length.
Headers enter as pre-parsed fields: `ageHdr` is the Age value when present
and parseable, `durationHdr` the X-trustydns-Duration value (zero when
absent, matching the ignored parse error).  The config mirrors the fields
New() derives: `ecsRequestData` is the "p4/p6" string New always formats
(it is non-empty even for 0/0). -/

structure DohConfig where
  useGetMethod : Bool
  ecsRemove : Bool
  ecsSet : Bool
  ecsFamily : Nat
  ecsPrefixLength : Int
  ecsIP : IPAddr
  ecsRequestData : List Char
  generatePadding : Bool
  ecsRedactResponse : Bool
deriving DecidableEq

structure HttpResponse where
  statusCode : Nat
  contentType : String
  body : Option Msg
  bodyLen : Nat
  ageHdr : Option Nat
  durationHdr : Int
deriving DecidableEq

inductive DohErr where
  | packDNSQuery
  | doRequest
  | nonStatusOk
  | contentTypeBad
  | bodyTooShort
  | unpackDNSResponse
deriving DecidableEq

/-- Model of the echo upstream: an HTTP 200 DoH response whose body is
byte-for-byte the delivered query (so it unpacks to the delivered message
and its length is the packed length), with no Age and no duration header. -/
def echoResponse (msgLen : Msg → Nat) (m : Msg) : HttpResponse :=
  { statusCode := 200, contentType := "application/dns-message",
    body := some m, bodyLen := msgLen m, ageHdr := none, durationHdr := 0 }

/-- The response post-processing of doh Resolve on the unpacked reply: the
Age TTL reduction when the reply is mutable, the unconditional restoration
of the original id, and the conditional ECS redaction and padding strip.
Split out of `dohResolve` as a named function (pure code motion from the
straight-line source). -/
def dohAdjustResponseMsg (cfg : DohConfig) (originalId : Nat)
    (retainedFinal : Bool) (ageHdr : Option Nat) (httpR : Msg) : Msg :=
  let respIsMutable := !httpR.tsigPresent
  let httpR1 :=
    if respIsMutable = true then
      match ageHdr with
      | some a => if a > 0 then ReduceTTL httpR (a : Int) 1 else httpR
      | none => httpR
    else httpR
  let httpR2 := { httpR1 with id := originalId }
  if respIsMutable = true then
    let a :=
      if retainedFinal = false ∧ cfg.ecsRedactResponse = true then
        (RemoveEDNS0FromOPT httpR2 8).1
      else httpR2
    if cfg.generatePadding then (RemoveEDNS0FromOPT a 12).1 else a
  else httpR2

/-- The response validation and result construction of doh Resolve: status
must be 200, content type must be the RFC 8484 one, the body must be at
least the minimum viable DNS message and must unpack; then the reply is
post-processed and returned with its metadata.  Split out of `dohResolve`
(pure code motion from the straight-line source). -/
def dohProcessResponse (cfg : DohConfig) (msgLen : Msg → Nat)
    (originalId : Nat) (retainedFinal : Bool) (totalDuration : Int)
    (serverName : String) (resp : HttpResponse) :
    Except DohErr (Msg × ResponseMetaData) :=
  if resp.statusCode ≠ 200 then .error .nonStatusOk
  else if resp.contentType ≠ "application/dns-message" then .error .contentTypeBad
  else if resp.bodyLen < MinimumViableDNSMessage then .error .bodyTooShort
  else
    match resp.body with
    | none => .error .unpackDNSResponse
    | some httpR =>
        let remoteDuration := resp.durationHdr
        let out := dohAdjustResponseMsg cfg originalId retainedFinal resp.ageHdr httpR
        let td0 := totalDuration - remoteDuration
        let meta : ResponseMetaData :=
          { transportType := "http",
            transportDuration := if td0 ≤ 0 then 1 else td0,
            resolutionDuration := if remoteDuration ≤ 0 then 1 else remoteDuration,
            payloadSize := msgLen out,
            queryTries := 1, serverTries := 1,
            finalServerUsed := serverName }
        .ok (out, meta)

/-- doh Resolve.  Returns the evolved best-server state together with either
the reply and its metadata or the error.  Mirrors the source: ECS rules 1-3
on mutable IN queries, GET id zeroing, PadAndPack or Pack serialisation,
best-server selection and result feedback, then response validation and
post-processing via `dohProcessResponse`. -/
def dohResolve (cfg : DohConfig) (msgLen : Msg → Nat)
    (pack : Msg → Except String (List Nat))
    (serverFn : Msg → Option HttpResponse)
    (bs : LatencyState) (startTime endTime : Int) (dnsQ : Msg) :
    LatencyState × Except DohErr (Msg × ResponseMetaData) :=
  let originalId := dnsQ.id
  let msgIsMutable := !dnsQ.tsigPresent
  let inQuery := dnsQ.opcode = 0 ∧ dnsQ.question.length = 1 ∧
      (dnsQ.question.headD { qclass := 0 }).qclass = 1 ∧ msgIsMutable = true
  let ecsPresent0 := (FindECS dnsQ).isSome
  let r1 :=
    if inQuery ∧ cfg.ecsRemove = true ∧ ecsPresent0 = true then
      ((RemoveEDNS0FromOPT dnsQ 8).1, false, false)
    else (dnsQ, true, ecsPresent0)
  let dnsQ1 := r1.1
  let retained1 := r1.2.1
  let present1 := r1.2.2
  let r2 :=
    if inQuery ∧ cfg.ecsSet = true ∧ present1 = false then
      (createECSInt dnsQ1 cfg.ecsFamily cfg.ecsPrefixLength cfg.ecsIP, false, true)
    else (dnsQ1, retained1, present1)
  let dnsQ2 := r2.1
  let retained2 := r2.2.1
  let present2 := r2.2.2
  let retainedFinal :=
    if inQuery ∧ cfg.ecsRequestData.length > 0 ∧ present2 = false then false
    else retained2
  let dnsQ3 := if cfg.useGetMethod then { dnsQ2 with id := 0 } else dnsQ2
  let serialized : Except DohErr Msg :=
    if cfg.generatePadding = true ∧ msgIsMutable = true then
      match PadAndPack msgLen pack dnsQ3 Rfc8467ClientPadModulo with
      | .error _ => .error .packDNSQuery
      | .ok _ => .ok (padAndPackFinalMsg msgLen dnsQ3 Rfc8467ClientPadModulo)
    else
      match pack dnsQ3 with
      | .error _ => .error .packDNSQuery
      | .ok _ => .ok dnsQ3
  match serialized with
  | .error e => (bs, .error e)
  | .ok delivered =>
      let bsix := (latBest bs).2
      match serverFn delivered with
      | none => (latResult bs bsix false endTime 0, .error .doRequest)
      | some resp =>
          let totalDuration := endTime - startTime
          let bs1 := latResult bs bsix true endTime totalDuration
          (bs1, dohProcessResponse cfg msgLen originalId retainedFinal
                  totalDuration (latBest bs).1 resp)

/-! # Theorems -/

/-- Helper: RemoveEDNS0FromOPT only rewrites Extra, so the header id is
unchanged. -/
theorem removeEDNS0_id (m : Msg) (c : Nat) : ((RemoveEDNS0FromOPT m c).1).id = m.id := by
  unfold RemoveEDNS0FromOPT
  dsimp only
  split <;> rfl

/-- C1: the proxy's downstream truncation step never clears an already-set
TC flag: for every behaviour of the library truncate primitive, every client
transport, every inbound query and every payload size, a response that
arrives with Truncated set is written with Truncated still set. -/
theorem C1_upstream_tc_preserved (truncateFn : Msg → Nat → Msg)
    (transport : String) (query resp : Msg) (payloadSize : Nat)
    (h : resp.truncated = true) :
    (serveDNSTruncate truncateFn transport query resp payloadSize).truncated = true := by
  simp only [serveDNSTruncate]
  split
  · split
    · simp [h]
    · exact h
  · exact h

/-- Witness for C1 at a concrete input: a TC=1 response of reported size 600
to a UDP client with no EDNS0 keeps TC=1. -/
theorem C1_upstream_tc_preserved_witness :
    (serveDNSTruncate (fun m _ => m) "udp" Msg.empty
      { Msg.empty with truncated := true } 600).truncated = true :=
  C1_upstream_tc_preserved (fun m _ => m) "udp" Msg.empty
    { Msg.empty with truncated := true } 600 rfl

/-- C2: on the UDP path, a response whose payload size exceeds the client
limit max(512, query EDNS0 UDPSize when above 512) is written with TC=1.
The payload size the proxy consults is the resolver-computed message length
(`payloadSize = msgLen resp`), and the external miekg/dns Truncate primitive
is assumed to honour its documented contract: when a message is longer than
the requested size it drops RRs or reports truncation. -/
theorem C2_udp_oversize_sets_tc (truncateFn : Msg → Nat → Msg)
    (msgLen : Msg → Nat) (query resp : Msg) (payloadSize : Nat)
    (hpayload : payloadSize = msgLen resp)
    (hlib : ∀ m lim, msgLen m > lim →
      (truncateFn m lim).truncated = true ∨ rrCount (truncateFn m lim) ≠ rrCount m)
    (hbig : payloadSize > truncationLimit query) :
    (serveDNSTruncate truncateFn "udp" query resp payloadSize).truncated = true := by
  have hthresh : DNSTruncateThreshold ≤ truncationLimit query := by
    unfold truncationLimit
    split
    · split
      · omega
      · omega
    · omega
  have hgt : payloadSize > DNSTruncateThreshold := lt_of_le_of_lt hthresh hbig
  simp only [serveDNSTruncate]
  split
  · rcases hlib resp (truncationLimit query) (hpayload ▸ hbig) with h1 | h2
    · simp [h1]
    · have h3 := Ne.symm h2
      simp [h3]
  · rename_i hout
    exact absurd ⟨rfl, hgt⟩ hout

/-- Witness for C2 at a concrete input: a 600-byte non-TC response to a UDP
client with no EDNS0 and a truncate primitive that reports truncation. -/
theorem C2_udp_oversize_sets_tc_witness :
    (serveDNSTruncate (fun m _ => { m with truncated := true }) "udp"
      Msg.empty Msg.empty 600).truncated = true :=
  C2_udp_oversize_sets_tc (fun m _ => { m with truncated := true })
    (fun _ => 600) Msg.empty Msg.empty 600 rfl
    (fun _ _ _ => Or.inl rfl) (by decide)

/-- C3: for every modulo in [1..65535] and every message, whenever
PadAndPack returns bytes without error their length is a multiple of the
modulo, whatever the library Len and Pack oracles do (the final check in the
source fails with a pack error rather than return a non-multiple). -/
theorem C3_padandpack_modulo (msgLen : Msg → Nat)
    (pack : Msg → Except String (List Nat)) (msg : Msg) (M : Nat)
    (bytes : List Nat) (hM1 : 1 ≤ M) (hM2 : M ≤ 65535)
    (h : PadAndPack msgLen pack msg M = .ok bytes) :
    bytes.length % M = 0 := by
  unfold PadAndPack at h
  split at h
  · exact Except.noConfusion h
  · revert h
    cases pack (padAndPackFinalMsg msgLen msg M) with
    | error e => intro h; exact Except.noConfusion h
    | ok packed =>
        intro h
        by_cases hz : packed.length % M = 0
        · simp [hz] at h
          exact h ▸ hz
        · simp [hz] at h

/-- Witness for C3 at a concrete input: modulo 4 with a pack oracle
returning 4 bytes. -/
theorem C3_padandpack_modulo_witness :
    ([0, 0, 0, 0] : List Nat).length % 4 = 0 :=
  C3_padandpack_modulo (fun _ => 0) (fun _ => .ok [0, 0, 0, 0])
    Msg.empty 4 [0, 0, 0, 0] (by decide) (by decide) (by rfl)

/-- C4: evaluation of the server's ECS synthesis at the failing input.  For
an IPv4 HTTPS peer 192.0.2.1:4711 and the header X-trustydns-Synth: 0/64
(IPv4 prefix length 0, so no synthesis should occur for this IPv4 peer), the
code inserts an ECS option anyway: since net.IP.To16() is non-nil for an
IPv4 address too, the second switch case fires and a family=2 option with
prefix length 64 and the IPv4 peer address is added to the query. -/
theorem C4_zero_v4_prefix_ipv4_peer_inserts_family2 :
    synthesizeECS
      (fun s => if s = "192.0.2.1".data then some (IPAddr.v4 192 0 2 1) else none)
      0 0 Msg.empty "0/64".data "192.0.2.1:4711".data
      = .ok (evECSv6Synth, CreateECS Msg.empty 2 64 (IPAddr.v4 192 0 2 1))
    ∧ FindECS (CreateECS Msg.empty 2 64 (IPAddr.v4 192 0 2 1))
      = some (.subnet 2 64 0 (IPAddr.v4 192 0 2 1)) := by
  constructor
  · rfl
  · rfl

/-- C5 counterexample: the claim says InBailiwick(name) is true iff the name
contains a dot and is a syntactically valid domain name.  At name = "a.b"
(which contains a dot and is accepted by the library domain-name check) the
code returns false, because it additionally requires dns.IsFqdn — a trailing
unescaped dot. -/
theorem C5_inbailiwick_claim_false :
    ¬ (dohInBailiwick "a.b".data
        = ("a.b".data.contains '.' && IsDomainName "a.b".data)) := by
  decide

/-- C5 amended: InBailiwick(name) is true iff the name contains a dot, is a
syntactically valid domain name, and is fully qualified (ends in an
unescaped dot). -/
theorem C5_inbailiwick_iff (name : List Char) :
    dohInBailiwick name
      = (name.contains '.' && (IsDomainName name && isFqdn name)) := by
  unfold dohInBailiwick
  by_cases h : name.contains '.'
  · simp [h]
  · simp [h]

/-- C6: for both manager policies, a run of API calls containing no Result
leaves the state — and hence the value Best returns — unchanged: Best,
Servers and Len are read-only and only Result can move the best server. -/
theorem C6_best_stable_between_results (tl : LatencyState) (tt : TradState)
    (ops : List BSOp) (h : ∀ o ∈ ops, o.isResult = false) :
    latBest (ops.foldl latExec tl) = latBest tl ∧
    tradBest (ops.foldl tradExec tt) = tradBest tt := by
  revert h
  induction ops generalizing tl tt with
  | nil => intro h; exact ⟨rfl, rfl⟩
  | cons op rest ih =>
      intro h
      have hop : op.isResult = false := h op (List.mem_cons_self op rest)
      have hrest : ∀ o ∈ rest, o.isResult = false :=
        fun o ho => h o (List.mem_cons_of_mem op ho)
      have hlat : latExec tl op = tl := by
        cases op with
        | best => rfl
        | servers => rfl
        | len => rfl
        | result s succ now lat => exact absurd hop (by simp [BSOp.isResult])
      have htrad : tradExec tt op = tt := by
        cases op with
        | best => rfl
        | servers => rfl
        | len => rfl
        | result s succ now lat => exact absurd hop (by simp [BSOp.isResult])
      simp only [List.foldl_cons, hlat, htrad]
      exact ih tl tt hrest

/-- Witness for C6 at a concrete input: a Best-Len-Servers run on two-server
managers. -/
theorem C6_best_stable_between_results_witness :
    latBest (([BSOp.best, BSOp.len, BSOp.servers]).foldl latExec
      { cfg := DefaultLatencyConfig, servers := ["a", "b"],
        stats := List.replicate 2 .zero, assessCount := 0, sampleCount := 0,
        sampleIndex := 0, saveBestIndex := 0, bestIndex := 0, bestExpires := 0,
        reassessRationale := 0 })
      = latBest
      { cfg := DefaultLatencyConfig, servers := ["a", "b"],
        stats := List.replicate 2 .zero, assessCount := 0, sampleCount := 0,
        sampleIndex := 0, saveBestIndex := 0, bestIndex := 0, bestExpires := 0,
        reassessRationale := 0 } ∧
    tradBest (([BSOp.best, BSOp.len, BSOp.servers]).foldl tradExec
      { servers := ["x", "y"], bestIndex := 0 })
      = tradBest { servers := ["x", "y"], bestIndex := 0 } :=
  C6_best_stable_between_results _ _ [BSOp.best, BSOp.len, BSOp.servers]
    (by decide)

/-- Helper for C9: the response post-processing always returns a message
whose id is the saved original id. -/
theorem dohAdjustResponseMsg_id (cfg : DohConfig) (originalId : Nat)
    (retained : Bool) (ageHdr : Option Nat) (httpR : Msg) :
    (dohAdjustResponseMsg cfg originalId retained ageHdr httpR).id = originalId := by
  unfold dohAdjustResponseMsg
  dsimp only
  split
  · split
    · rw [removeEDNS0_id]
      split
      · rw [removeEDNS0_id]
      · rfl
    · split
      · rw [removeEDNS0_id]
      · rfl
  · rfl

/-- Helper for C9: whenever the response pipeline accepts a response, the
returned message carries the original id. -/
theorem dohProcessResponse_ok_id (cfg : DohConfig) (msgLen : Msg → Nat)
    (originalId : Nat) (retained : Bool) (td : Int) (sname : String)
    (resp : HttpResponse) (r : Msg) (meta : ResponseMetaData)
    (h : dohProcessResponse cfg msgLen originalId retained td sname resp
          = .ok (r, meta)) :
    r.id = originalId := by
  unfold dohProcessResponse at h
  dsimp only at h
  split at h
  · exact Except.noConfusion h
  · split at h
    · exact Except.noConfusion h
    · split at h
      · exact Except.noConfusion h
      · split at h
        · exact Except.noConfusion h
        · have hr := congrArg Prod.fst (Except.ok.inj h)
          dsimp only at hr
          rw [← hr]
          exact dohAdjustResponseMsg_id _ _ _ _ _

/-- Helper for C9: whenever dohResolve succeeds, the returned message
carries the original query id (the source restores it unconditionally after
unpacking, so this holds for every upstream behaviour). -/
theorem dohResolve_ok_id (cfg : DohConfig) (msgLen : Msg → Nat)
    (pack : Msg → Except String (List Nat))
    (serverFn : Msg → Option HttpResponse) (bs : LatencyState)
    (startTime endTime : Int) (q : Msg) (bs' : LatencyState) (r : Msg)
    (meta : ResponseMetaData)
    (h : dohResolve cfg msgLen pack serverFn bs startTime endTime q
          = (bs', .ok (r, meta))) :
    r.id = q.id := by
  unfold dohResolve at h
  dsimp only at h
  repeat' split at h
  all_goals
    first
      | exact Except.noConfusion (congrArg Prod.snd h)
      | exact dohProcessResponse_ok_id _ _ _ _ _ _ _ _ _ (congrArg Prod.snd h)

/-- C9: if the upstream DoH server echoes the delivered query verbatim,
the message dohResolve hands back carries the original query id — also in
GET mode, where the id is zeroed on the wire and the saved original id is
restored on the response. -/
theorem C9_echo_id_restored (cfg : DohConfig) (msgLen : Msg → Nat)
    (pack : Msg → Except String (List Nat)) (bs : LatencyState)
    (startTime endTime : Int) (q : Msg) (bs' : LatencyState) (r : Msg)
    (meta : ResponseMetaData)
    (h : dohResolve cfg msgLen pack (fun m => some (echoResponse msgLen m))
          bs startTime endTime q = (bs', .ok (r, meta))) :
    r.id = q.id :=
  dohResolve_ok_id _ _ _ _ _ _ _ _ _ _ _ h

/-- Witness for C9 at a concrete input: a GET-mode resolver against the
echo upstream on query id 23 returns id 23. -/
theorem C9_echo_id_restored_witness :
    dohResolve
      { useGetMethod := true, ecsRemove := false, ecsSet := false,
        ecsFamily := 0, ecsPrefixLength := 0, ecsIP := .v4 0 0 0 0,
        ecsRequestData := "0/0".data, generatePadding := false,
        ecsRedactResponse := false }
      (fun _ => 100) (fun _ => .ok [0])
      (fun m => some (echoResponse (fun _ => 100) m))
      { cfg := DefaultLatencyConfig, servers := ["doh"],
        stats := [.zero], assessCount := 0, sampleCount := 0,
        sampleIndex := 0, saveBestIndex := 0, bestIndex := 0,
        bestExpires := 0, reassessRationale := 0 }
      0 5 { Msg.empty with id := 23, question := [{ qclass := 1 }] }
      = (latResult
          { cfg := DefaultLatencyConfig, servers := ["doh"],
            stats := [.zero], assessCount := 0, sampleCount := 0,
            sampleIndex := 0, saveBestIndex := 0, bestIndex := 0,
            bestExpires := 0, reassessRationale := 0 } 0 true 5 5,
         .ok ({ Msg.empty with id := 23, question := [{ qclass := 1 }] },
              { transportType := "http", transportDuration := 5,
                resolutionDuration := 1, payloadSize := 100,
                queryTries := 1, serverTries := 1,
                finalServerUsed := "doh" }))
    ∧ ({ Msg.empty with id := 23, question := [{ qclass := 1 }] } : Msg).id
      = ({ Msg.empty with id := 23, question := [{ qclass := 1 }] } : Msg).id := by
  refine ⟨?_, ?_⟩
  · rfl
  · have hEval :
      dohResolve
        { useGetMethod := true, ecsRemove := false, ecsSet := false,
          ecsFamily := 0, ecsPrefixLength := 0, ecsIP := .v4 0 0 0 0,
          ecsRequestData := "0/0".data, generatePadding := false,
          ecsRedactResponse := false }
        (fun _ => 100) (fun _ => .ok [0])
        (fun m => some (echoResponse (fun _ => 100) m))
        { cfg := DefaultLatencyConfig, servers := ["doh"],
          stats := [.zero], assessCount := 0, sampleCount := 0,
          sampleIndex := 0, saveBestIndex := 0, bestIndex := 0,
          bestExpires := 0, reassessRationale := 0 }
        0 5 { Msg.empty with id := 23, question := [{ qclass := 1 }] }
        = (latResult
            { cfg := DefaultLatencyConfig, servers := ["doh"],
              stats := [.zero], assessCount := 0, sampleCount := 0,
              sampleIndex := 0, saveBestIndex := 0, bestIndex := 0,
              bestExpires := 0, reassessRationale := 0 } 0 true 5 5,
           .ok ({ Msg.empty with id := 23, question := [{ qclass := 1 }] },
                { transportType := "http", transportDuration := 5,
                  resolutionDuration := 1, payloadSize := 100,
                  queryTries := 1, serverTries := 1,
                  finalServerUsed := "doh" })) := by rfl
    exact C9_echo_id_restored _ _ _ _ _ _ _ _ _ _ hEval

/-- Helper: the iterate and bsSuccess flags of one resolve attempt are
exactly the classification of its final reply. -/
theorem attemptCore_classify (exch : Exchanger) (st : ResolveState) :
    (attemptCore exch st).iterate
      = (classifyOutcome (attemptCore exch st).reply).2 ∧
    (attemptCore exch st).bsSuccess
      = (classifyOutcome (attemptCore exch st).reply).1 := by
  unfold attemptCore
  dsimp only
  repeat' split
  all_goals exact ⟨rfl, rfl⟩

/-- C10: the cumulative-RTT budget is only consulted after an attempt that
iterates.  (1) An attempt whose exchange produced a reply classified as
non-retry is returned successfully by the loop at once, with no condition on
the accumulated time, so the reply is returned even when the budget is
already exceeded.  (2) A timeout exit requires the attempt to have been a
retryable failure with the accrued time above the budget.  (3) Whenever
Resolve ends with the Query-timeout error, some attempt reachable through
iterations ended that way. -/
theorem C10_budget_checked_only_on_retry :
    (∀ (msgLen : Msg → Nat) (exch : Exchanger) (tA : Int) (rem : Nat)
        (st : ResolveState) (r : Msg),
      (attemptCore exch st).reply = some r →
      (attemptCore exch st).iterate = false →
      resolveLoop msgLen exch tA (rem + 1) st
        = .ok (r, { transportType := (attemptCore exch st).transportType,
                    transportDuration := 1,
                    resolutionDuration := (attemptCore exch st).stAfter.timeUsed,
                    payloadSize := msgLen r,
                    queryTries := (attemptCore exch st).stAfter.queryTries,
                    serverTries := (attemptCore exch st).stAfter.serverTries,
                    finalServerUsed := (attemptCore exch st).stAfter.finalServerUsed })) ∧
    (∀ (msgLen : Msg → Nat) (exch : Exchanger) (tA : Int) (st : ResolveState),
      attemptStep msgLen exch tA st = .timeoutFail →
      (attemptCore exch st).iterate = true ∧
      (attemptCore exch st).stAfter.timeUsed > tA) ∧
    (∀ (msgLen : Msg → Nat) (exch : Exchanger) (tA : Int) (n : Nat)
        (st : ResolveState),
      resolveLoop msgLen exch tA n st = .error .queryTimeout →
      ∃ st', Relation.ReflTransGen
          (fun a b => attemptStep msgLen exch tA a = .next b) st st' ∧
        attemptStep msgLen exch tA st' = .timeoutFail) := by
  refine ⟨?_, ?_, ?_⟩
  · intro msgLen exch tA rem st r h1 h2
    have hstep : attemptStep msgLen exch tA st
        = .done r { transportType := (attemptCore exch st).transportType,
                    transportDuration := 1,
                    resolutionDuration := (attemptCore exch st).stAfter.timeUsed,
                    payloadSize := msgLen r,
                    queryTries := (attemptCore exch st).stAfter.queryTries,
                    serverTries := (attemptCore exch st).stAfter.serverTries,
                    finalServerUsed := (attemptCore exch st).stAfter.finalServerUsed } := by
      unfold attemptStep
      dsimp only
      rw [h1, h2]
    simp only [resolveLoop, hstep]
  · intro msgLen exch tA st h
    unfold attemptStep at h
    dsimp only at h
    split at h
    · exact StepOut.noConfusion h
    · rename_i hpair
      split at h
      · rename_i hgt
        refine ⟨?_, hgt⟩
        rcases hrep : (attemptCore exch st).reply with _ | r
        · rw [(attemptCore_classify exch st).1, hrep]
          rfl
        · rcases hit : (attemptCore exch st).iterate
          · exact (hpair r hrep hit).elim
          · rfl
      · exact StepOut.noConfusion h
  · intro msgLen exch tA n
    induction n with
    | zero =>
        intro st h
        rw [resolveLoop] at h
        exact ResolveErr.noConfusion (Except.error.inj h)
    | succ k ih =>
        intro st h
        rw [resolveLoop] at h
        cases hstep : attemptStep msgLen exch tA st with
        | done r meta => rw [hstep] at h; exact Except.noConfusion h
        | timeoutFail => exact ⟨st, Relation.ReflTransGen.refl, hstep⟩
        | next st2 =>
            rw [hstep] at h
            obtain ⟨st', hreach, hfail⟩ := ih st2 h
            exact ⟨st', Relation.ReflTransGen.head hstep hreach, hfail⟩

/-- Witness for C10 at a concrete input: one server, a budget of 0 seconds,
and an NXDOMAIN reply whose round trip took 10 seconds — the reply is still
returned successfully even though the accumulated RTT far exceeds the
budget. -/
theorem C10_budget_checked_only_on_retry_witness :
    resolveLoop (fun _ => 7)
      (fun _ _ _ => { reply := some { Msg.empty with rcode := 3 },
                      rtt := 10000000000 })
      0 1 { trad := { servers := ["s"], bestIndex := 0 }, timeUsed := 0,
            queryTries := 0, serverTries := 0, finalServerUsed := "",
            callIx := 0 }
      = .ok ({ Msg.empty with rcode := 3 },
             { transportType := "udp", transportDuration := 1,
               resolutionDuration := 10000000000, payloadSize := 7,
               queryTries := 1, serverTries := 1, finalServerUsed := "s" }) :=
  C10_budget_checked_only_on_retry.1 _ _ 0 0 _ _ rfl rfl

/-- C8 (amended): when an attempt's UDP exchange yields a reply with
RCODE=NoError and TC=1, the same query is immediately re-exchanged over TCP
with the same server (one further exchange, against the same server name);
if the TCP exchange succeeds with NoError its reply is returned with
transport TCP, and the attempt adds two query tries and one server try — so
queryTries = 2 and serverTries = 1 exactly when the fallback happens on the
first attempt; otherwise (TCP transport error or non-NoError) the UDP reply
is retained with transport UDP. -/
theorem C8_tcp_fallback (msgLen : Msg → Nat) (exch : Exchanger) (tA : Int)
    (st : ResolveState) (r : Msg)
    (hudp : (exch st.callIx "" (tradBest st.trad).1).reply = some r)
    (hrc : r.rcode = 0) (htr : r.truncated = true) :
    ((attemptCore exch st).tcpFallback = true ∧
     (attemptCore exch st).stAfter.queryTries = st.queryTries + 2 ∧
     (attemptCore exch st).stAfter.serverTries = st.serverTries + 1 ∧
     (attemptCore exch st).stAfter.callIx = st.callIx + 2) ∧
    (∀ tr, (exch (st.callIx + 1) "tcp" (tradBest st.trad).1).reply = some tr →
      tr.rcode = 0 →
      (attemptCore exch st).reply = some tr ∧
      (attemptCore exch st).transportType = DNSTCPTransport ∧
      (attemptCore exch st).tcpSuperior = true ∧
      attemptStep msgLen exch tA st = .done tr
        { transportType := DNSTCPTransport, transportDuration := 1,
          resolutionDuration := st.timeUsed
            + ((exch st.callIx "" (tradBest st.trad).1).rtt
               + (exch (st.callIx + 1) "tcp" (tradBest st.trad).1).rtt),
          payloadSize := msgLen tr,
          queryTries := st.queryTries + 2,
          serverTries := st.serverTries + 1,
          finalServerUsed := (tradBest st.trad).1 }) ∧
    ((exch (st.callIx + 1) "tcp" (tradBest st.trad).1).reply = none →
      (attemptCore exch st).reply = some r ∧
      (attemptCore exch st).transportType = DNSUDPTransport) ∧
    (∀ tr, (exch (st.callIx + 1) "tcp" (tradBest st.trad).1).reply = some tr →
      tr.rcode ≠ 0 →
      (attemptCore exch st).reply = some r ∧
      (attemptCore exch st).transportType = DNSUDPTransport) := by
  have hcond : r.rcode = 0 ∧ r.truncated = true := ⟨hrc, htr⟩
  refine ⟨?_, ?_, ?_, ?_⟩
  · unfold attemptCore
    dsimp only
    rw [hudp]
    dsimp only
    rw [if_pos hcond]
    rcases htcp : (exch (st.callIx + 1) "tcp" (tradBest st.trad).1).reply with _ | tr
    · exact ⟨rfl, rfl, rfl, rfl⟩
    · dsimp only
      by_cases hrc2 : tr.rcode = 0
      · rw [if_pos hrc2]
        exact ⟨rfl, rfl, rfl, rfl⟩
      · rw [if_neg hrc2]
        exact ⟨rfl, rfl, rfl, rfl⟩
  · intro tr htcp hrc2
    refine ⟨?_, ?_, ?_, ?_⟩
    · unfold attemptCore
      dsimp only
      rw [hudp]
      dsimp only
      rw [if_pos hcond, htcp]
      dsimp only
      rw [if_pos hrc2]
    · unfold attemptCore
      dsimp only
      rw [hudp]
      dsimp only
      rw [if_pos hcond, htcp]
      dsimp only
      rw [if_pos hrc2]
    · unfold attemptCore
      dsimp only
      rw [hudp]
      dsimp only
      rw [if_pos hcond, htcp]
      dsimp only
      rw [if_pos hrc2]
    · unfold attemptStep attemptCore
      dsimp only
      rw [hudp]
      dsimp only
      rw [if_pos hcond, htcp]
      dsimp only
      rw [if_pos hrc2]
      dsimp only [classifyOutcome]
      rw [hrc2]
      simp
  · intro htcp
    unfold attemptCore
    dsimp only
    rw [hudp]
    dsimp only
    rw [if_pos hcond, htcp]
    exact ⟨rfl, rfl⟩
  · intro tr htcp hrc2
    unfold attemptCore
    dsimp only
    rw [hudp]
    dsimp only
    rw [if_pos hcond, htcp]
    dsimp only
    rw [if_neg hrc2]
    exact ⟨rfl, rfl⟩

/-- Witness for C8 at a concrete input: the first attempt's UDP exchange
returns NoError with TC=1, the TCP re-exchange returns NoError, and the
attempt ends with the TCP reply, transport TCP, two query tries and one
server try. -/
theorem C8_tcp_fallback_witness :
    attemptStep (fun _ => 9)
      (fun i _ _ =>
        if i = 0 then
          { reply := some { Msg.empty with id := 1, rcode := 0, truncated := true },
            rtt := 2 }
        else { reply := some { Msg.empty with id := 2 }, rtt := 3 })
      1000000
      { trad := { servers := ["ns"], bestIndex := 0 }, timeUsed := 0,
        queryTries := 0, serverTries := 0, finalServerUsed := "", callIx := 0 }
      = .done { Msg.empty with id := 2 }
          { transportType := "tcp", transportDuration := 1,
            resolutionDuration := 5, payloadSize := 9,
            queryTries := 2, serverTries := 1, finalServerUsed := "ns" } := by
  have h := C8_tcp_fallback (fun _ => 9)
    (fun i _ _ =>
      if i = 0 then
        { reply := some { Msg.empty with id := 1, rcode := 0, truncated := true },
          rtt := 2 }
      else { reply := some { Msg.empty with id := 2 }, rtt := 3 })
    1000000
    { trad := { servers := ["ns"], bestIndex := 0 }, timeUsed := 0,
      queryTries := 0, serverTries := 0, finalServerUsed := "", callIx := 0 }
    { Msg.empty with id := 1, rcode := 0, truncated := true }
    (by rfl) rfl rfl
  exact (h.2.1 { Msg.empty with id := 2 } (by rfl) rfl).2.2.2

/-- C8 counterexample: the claim attaches queryTries = 2 and serverTries = 1
to every attempt whose UDP exchange came back NoError with TC=1.  When the
fallback happens on the second attempt (first server unreachable), Resolve
returns the TCP reply with queryTries = 3 and serverTries = 2, so the
claimed metadata values are wrong for that attempt. -/
theorem C8_tcp_fallback_claim_false :
    localResolve (fun _ => 30)
      (fun i _ _ =>
        if i = 0 then { reply := none, rtt := 1 }
        else if i = 1 then
          { reply := some { Msg.empty with id := 3001, rcode := 0, truncated := true },
            rtt := 1 }
        else { reply := some { Msg.empty with id := 3002 }, rtt := 1 })
      2 5 ["ns1", "ns2"]
      = .ok ({ Msg.empty with id := 3002 },
             { transportType := "tcp", transportDuration := 1,
               resolutionDuration := 3, payloadSize := 30,
               queryTries := 3, serverTries := 2, finalServerUsed := "ns2" })
    ∧ ((3 : Nat) ≠ 2 ∧ (2 : Nat) ≠ 1) :=
  ⟨by rfl, by decide⟩

/-- Helper: reading a list after set either sees the old value or, at the
set position, the new value. -/
theorem getD_set_cases (l : List LatencyServerStats) (ix j : Nat)
    (v : LatencyServerStats) :
    (l.set ix v).getD j .zero = l.getD j .zero ∨
    (j = ix ∧ (l.set ix v).getD j .zero = v) := by
  by_cases hij : ix = j
  · subst hij
    by_cases hlt : ix < l.length
    · right
      refine ⟨rfl, ?_⟩
      simp [List.getD_eq_getElem?_getD, List.getElem?_set, hlt]
    · left
      have hnone : l[ix]? = none := by
        rw [List.getElem?_eq_none_iff]
        omega
      simp [List.getD_eq_getElem?_getD, List.getElem?_set, hlt, hnone]
  · left
    simp [List.getD_eq_getElem?_getD, List.getElem?_set, hij]

/-- Helper: one scan step changes a server's stats only when that server is
failed and its last failure is older than ResetFailedAfter. -/
theorem reassessStepAcc_stats (rfa now : Int)
    (acc : List LatencyServerStats × Option Nat × Nat) (ix j : Nat)
    (h : (reassessStepAcc rfa now acc ix).1.getD j .zero
          ≠ acc.1.getD j .zero) :
    (acc.1.getD j .zero).lastStatusWasFailure = true ∧
    (acc.1.getD j .zero).lastStatusTime + rfa < now := by
  obtain ⟨stats, nb, rat⟩ := acc
  unfold reassessStepAcc at h
  dsimp only at h
  split at h
  · split at h
    · rename_i hfail hold
      rcases getD_set_cases stats ix j .zero with heq | ⟨hji, hval⟩
      · exact absurd heq h
      · subst hji
        exact ⟨hfail, hold⟩
    · exact absurd rfl h
  · split at h
    · exact absurd rfl h
    · split at h
      · exact absurd rfl h
      · split at h
        · exact absurd rfl h
        · split at h
          · exact absurd rfl h
          · exact absurd rfl h

/-- Helper: one scan step preserves the invariant that the tentative new
best is a non-failing server. -/
theorem reassessStepAcc_inv (rfa now : Int)
    (acc : List LatencyServerStats × Option Nat × Nat) (ix : Nat)
    (hinv : ∀ i, acc.2.1 = some i →
      (acc.1.getD i .zero).lastStatusWasFailure = false) :
    ∀ i, (reassessStepAcc rfa now acc ix).2.1 = some i →
      ((reassessStepAcc rfa now acc ix).1.getD i
        LatencyServerStats.zero).lastStatusWasFailure = false := by
  obtain ⟨stats, nb, rat⟩ := acc
  intro i
  unfold reassessStepAcc
  dsimp only
  split
  · split
    · intro hsome
      dsimp only
      have hbase := hinv i hsome
      rcases getD_set_cases stats ix i .zero with heq | ⟨hji, hval⟩
      · rw [heq]
        exact hbase
      · rw [hval]
        rfl
    · intro hsome
      exact hinv i hsome
  · rename_i hnotfail
    split
    · intro hsome
      have hix : ix = i := Option.some.inj hsome
      subst hix
      simpa using hnotfail
    · rename_i nbv
      split
      · intro hsome
        exact hinv i hsome
      · split
        · intro hsome
          have hix : ix = i := Option.some.inj hsome
          subst hix
          simpa using hnotfail
        · split
          · intro hsome
            have hix : ix = i := Option.some.inj hsome
            subst hix
            simpa using hnotfail
          · intro hsome
            exact hinv i hsome

/-- Helper: over the whole scan, a server's stats change only by
rehabilitation, which requires a stale failure. -/
theorem reassessScan_rehab (rfa now : Int) (ixs : List Nat)
    (acc : List LatencyServerStats × Option Nat × Nat) (j : Nat)
    (h : (reassessScan rfa now ixs acc).1.getD j .zero
          ≠ acc.1.getD j .zero) :
    (acc.1.getD j .zero).lastStatusWasFailure = true ∧
    (acc.1.getD j .zero).lastStatusTime + rfa < now := by
  induction ixs generalizing acc with
  | nil => exact absurd rfl h
  | cons ix rest ih =>
      rw [reassessScan] at h
      by_cases heq : (reassessStepAcc rfa now acc ix).1.getD j .zero
          = acc.1.getD j .zero
      · have h2 := ih (reassessStepAcc rfa now acc ix) (by rw [heq]; exact h)
        rwa [heq] at h2
      · exact reassessStepAcc_stats rfa now acc ix j heq

/-- Helper: the scan only ever proposes a non-failing server as the new
best. -/
theorem reassessScan_select (rfa now : Int) (ixs : List Nat)
    (acc : List LatencyServerStats × Option Nat × Nat)
    (hinv : ∀ i, acc.2.1 = some i →
      (acc.1.getD i .zero).lastStatusWasFailure = false) :
    ∀ i, (reassessScan rfa now ixs acc).2.1 = some i →
      ((reassessScan rfa now ixs acc).1.getD i
        LatencyServerStats.zero).lastStatusWasFailure = false := by
  induction ixs generalizing acc with
  | nil => exact hinv
  | cons ix rest ih =>
      rw [reassessScan]
      exact ih _ (reassessStepAcc_inv rfa now acc ix hinv)

/-- C7 counterexample: with a single server, after one failed Result at time
1000 the very next Best() returns that server although ResetFailedAfter
(default 3 minutes) has not remotely elapsed: reassessBest short-circuits on
a one-server set and the all-bad rotation likewise hands back failed servers,
so the claim that a failed server is never returned before rehabilitation is
false on the code. -/
theorem C7_failed_server_claim_false :
    (newLatency { reassessAfter := 0, reassessCount := 0, resetFailedAfter := 0,
                  sampleOthersEvery := 0, weightForLatest := 0 } ["s0"]
      = some { cfg := { reassessAfter := 61000000000, reassessCount := 1061,
                        resetFailedAfter := 180000000000,
                        sampleOthersEvery := 20, weightForLatest := 67 },
               servers := ["s0"], stats := [.zero], assessCount := 0,
               sampleCount := 0, sampleIndex := 0, saveBestIndex := 0,
               bestIndex := 0, bestExpires := 0,
               reassessRationale := algNone }) ∧
    latBest (latResult
      { cfg := { reassessAfter := 61000000000, reassessCount := 1061,
                 resetFailedAfter := 180000000000,
                 sampleOthersEvery := 20, weightForLatest := 67 },
        servers := ["s0"], stats := [.zero], assessCount := 0,
        sampleCount := 0, sampleIndex := 0, saveBestIndex := 0,
        bestIndex := 0, bestExpires := 0, reassessRationale := algNone }
      0 false 1000 0) = ("s0", 0) ∧
    ((latResult
      { cfg := { reassessAfter := 61000000000, reassessCount := 1061,
                 resetFailedAfter := 180000000000,
                 sampleOthersEvery := 20, weightForLatest := 67 },
        servers := ["s0"], stats := [.zero], assessCount := 0,
        sampleCount := 0, sampleIndex := 0, saveBestIndex := 0,
        bestIndex := 0, bestExpires := 0, reassessRationale := algNone }
      0 false 1000 0).stats.getD 0 .zero).lastStatusWasFailure = true ∧
    ((latResult
      { cfg := { reassessAfter := 61000000000, reassessCount := 1061,
                 resetFailedAfter := 180000000000,
                 sampleOthersEvery := 20, weightForLatest := 67 },
        servers := ["s0"], stats := [.zero], assessCount := 0,
        sampleCount := 0, sampleIndex := 0, saveBestIndex := 0,
        bestIndex := 0, bestExpires := 0, reassessRationale := algNone }
      0 false 1000 0).stats.getD 0 .zero).lastStatusTime = 1000 ∧
    (1000 : Int) < 1000 + 180000000000 :=
  ⟨by rfl, by rfl, by rfl, by rfl, by decide⟩

/-- C7 (amended): the latency policy's selection machinery never *chooses* a
still-failed server — during reassessment a failed server's stats are reset
only when more than ResetFailedAfter has elapsed since its last failure
(part 1); whenever reassessBest picks a candidate from its scan (rationale
first-cab, second-cab or fastest) the selected best is a non-failing server
(part 2); and the sampler redirects the best either back to the saved true
best, or to the next sample index only when that server is not failing
(part 3).  A failed server can still be returned by Best() when no
non-failed candidate exists: the single-server shortcut and the all-bad
rotation proceed anyway, and the saved best may itself have failed since it
was chosen. -/
theorem C7_failed_server_selection :
    (∀ (t : LatencyState) (now : Int) (j : Nat),
      (reassessBest t now).stats.getD j .zero ≠ t.stats.getD j .zero →
      (t.stats.getD j .zero).lastStatusWasFailure = true ∧
      (t.stats.getD j .zero).lastStatusTime + t.cfg.resetFailedAfter < now) ∧
    (∀ (t : LatencyState) (now : Int),
      ((reassessBest t now).reassessRationale = algFirstCab ∨
       (reassessBest t now).reassessRationale = algSecondCab ∨
       (reassessBest t now).reassessRationale = algFastest) →
      ((reassessBest t now).stats.getD (reassessBest t now).bestIndex
        LatencyServerStats.zero).lastStatusWasFailure = false) ∧
    (∀ t : LatencyState,
      (sampleStep t).bestIndex = t.saveBestIndex ∨
      (sampleStep t).bestIndex = t.bestIndex ∨
      ((sampleStep t).bestIndex = (t.sampleIndex + 1) % t.servers.length ∧
       (t.stats.getD ((t.sampleIndex + 1) % t.servers.length)
         LatencyServerStats.zero).lastStatusWasFailure = false)) := by
  refine ⟨?_, ?_, ?_⟩
  · intro t now j h
    unfold reassessBest at h
    dsimp only at h
    split at h
    · exact absurd rfl h
    · split at h
      · rename_i hn x stats2 nb rat hscan
        dsimp only at h
        refine reassessScan_rehab t.cfg.resetFailedAfter now
          (List.range t.servers.length) (t.stats, none, algNone) j ?_
        rw [hscan]
        exact h
      · rename_i hn x stats2 snd hscan
        dsimp only at h
        refine reassessScan_rehab t.cfg.resetFailedAfter now
          (List.range t.servers.length) (t.stats, none, algNone) j ?_
        rw [hscan]
        exact h
  · intro t now hrat
    unfold reassessBest at hrat ⊢
    dsimp only at hrat ⊢
    split at hrat
    · dsimp only at hrat
      rcases hrat with h1 | h1 | h1 <;> simp [algOnlyOne, algFirstCab,
        algSecondCab, algFastest] at h1
    · split at hrat
      · rename_i hn x stats2 nb rat hscan
        rw [if_neg hn]
        dsimp only
        have hsel := reassessScan_select t.cfg.resetFailedAfter now
          (List.range t.servers.length) (t.stats, none, algNone)
          (fun i hi => Option.noConfusion hi) nb (by rw [hscan])
        rw [hscan] at hsel
        exact hsel
      · rename_i hn x stats2 snd hscan
        dsimp only at hrat
        rcases hrat with h1 | h1 | h1 <;> simp [algAllBad, algFirstCab,
          algSecondCab, algFastest] at h1
  · intro t
    unfold sampleStep
    dsimp only
    split
    · left
      rfl
    · split
      · rename_i hgood
        right; right
        refine ⟨rfl, ?_⟩
        simpa using hgood
      · right; left
        rfl

/-- Witness for C7 at a concrete input: a two-server set where server 0 is
failed since time 0 with ResetFailedAfter 10 and now = 20.  Reassessment
changes server 0's stats (so its prior failure was stale), and the chosen
rationale selects a non-failing best. -/
theorem C7_failed_server_selection_witness :
    ((([{ lastStatusTime := 0, lastStatusWasFailure := true,
          weightedAverage := 0 },
        LatencyServerStats.zero] : List LatencyServerStats).getD 0
        LatencyServerStats.zero).lastStatusWasFailure = true ∧
     ((([{ lastStatusTime := 0, lastStatusWasFailure := true,
           weightedAverage := 0 },
         LatencyServerStats.zero] : List LatencyServerStats).getD 0
         LatencyServerStats.zero).lastStatusTime + 10 < 20)) ∧
    ((reassessBest
        { cfg := { reassessAfter := 61000000000, reassessCount := 1061,
                   resetFailedAfter := 10, sampleOthersEvery := 20,
                   weightForLatest := 67 },
          servers := ["a", "b"],
          stats := [{ lastStatusTime := 0, lastStatusWasFailure := true,
                      weightedAverage := 0 }, LatencyServerStats.zero],
          assessCount := 0, sampleCount := 0, sampleIndex := 0,
          saveBestIndex := 0, bestIndex := 0, bestExpires := 0,
          reassessRationale := algNone } 20).stats.getD
      (reassessBest
        { cfg := { reassessAfter := 61000000000, reassessCount := 1061,
                   resetFailedAfter := 10, sampleOthersEvery := 20,
                   weightForLatest := 67 },
          servers := ["a", "b"],
          stats := [{ lastStatusTime := 0, lastStatusWasFailure := true,
                      weightedAverage := 0 }, LatencyServerStats.zero],
          assessCount := 0, sampleCount := 0, sampleIndex := 0,
          saveBestIndex := 0, bestIndex := 0, bestExpires := 0,
          reassessRationale := algNone } 20).bestIndex
      LatencyServerStats.zero).lastStatusWasFailure = false := by
  refine ⟨?_, ?_⟩
  · exact C7_failed_server_selection.1
      { cfg := { reassessAfter := 61000000000, reassessCount := 1061,
                 resetFailedAfter := 10, sampleOthersEvery := 20,
                 weightForLatest := 67 },
        servers := ["a", "b"],
        stats := [{ lastStatusTime := 0, lastStatusWasFailure := true,
                    weightedAverage := 0 }, LatencyServerStats.zero],
        assessCount := 0, sampleCount := 0, sampleIndex := 0,
        saveBestIndex := 0, bestIndex := 0, bestExpires := 0,
        reassessRationale := algNone } 20 0 (by decide)
  · exact C7_failed_server_selection.2.1
      { cfg := { reassessAfter := 61000000000, reassessCount := 1061,
                 resetFailedAfter := 10, sampleOthersEvery := 20,
                 weightForLatest := 67 },
        servers := ["a", "b"],
        stats := [{ lastStatusTime := 0, lastStatusWasFailure := true,
                    weightedAverage := 0 }, LatencyServerStats.zero],
        assessCount := 0, sampleCount := 0, sampleIndex := 0,
        saveBestIndex := 0, bestIndex := 0, bestExpires := 0,
        reassessRationale := algNone } 20 (Or.inl (by decide))
